import Mathlib

/-!
Verification development for the margin / risk engine in
`src/financial_engineering.py` and `src/margin.py`.

The Python code is embedded shallowly:

* machine floats are modelled as exact rationals (`ℚ`);
* Python `dict`s are association lists with first-match lookup
  (all dictionaries built by the code have distinct keys);
* fallible Python code (code that can raise `ValueError`, `KeyError`,
  `IndexError` or `ZeroDivisionError`) is modelled in the `Except PyErr`
  monad;
* the external option-pricing capability (`py_vollib`'s `black_scholes`
  and `implied_volatility`) is modelled as an abstract record of total
  functions, applied to exactly the argument expressions the source
  passes, in source order.

Python-semantics notes that the embedding relies on (each is cited again
at its point of use):

* `int(s)` on a string that contains a character other than an optional
  leading sign and decimal digits raises `ValueError`
  (underscore/whitespace tolerance of CPython is not needed by any input
  considered here);
* constructing an `IntEnum` from a value looks the value up by equality
  against the member values; the member values are `int`s, so a `str`
  argument never matches and the constructor raises `ValueError`;
* `str(member)` of an `IntEnum` member returns the decimal string of the
  member value (CPython >= 3.11 semantics; under <= 3.10 it returns
  `"ClassName.MEMBER"`, which makes the decoder fail in exactly the same
  way, so the facts proved below are insensitive to the choice);
* an attribute access like `margin.MAINTENANCE` on an enum *member*
  resolves to the class attribute `MarginType.MAINTENANCE`, an enum
  member whose truth value is the truth value of its integer value;
* the default argument of `dict.get(key, default)` is evaluated eagerly,
  before the lookup happens;
* `round(x, 3)` rounds half to even (banker's rounding), not down;
* `x / 31, 536, 000` is a 3-tuple whose first component is `x / 31`.
-/

/-- Python runtime errors that the embedded code can raise. -/
inductive PyErr
  | valueError
  | keyError
  | indexError
  | zeroDivisionError
  deriving DecidableEq

/-- Python value that can be passed to an `IntEnum` constructor: the source
passes both `int`s and `str`s. -/
inductive PyVal
  | int (n : ℤ)
  | str (s : String)
  deriving DecidableEq

/-- Helper: all characters are decimal digits and the list is nonempty. -/
def decDigitsOk (l : List Char) : Bool :=
  !l.isEmpty && l.all Char.isDigit

/-- Helper: value of a decimal digit string. -/
def decDigitsVal (l : List Char) : ℕ :=
  l.foldl (fun a c => 10 * a + (c.toNat - 48)) 0

/-- Model of Python `int(s)` for a `str` argument: optional single leading
sign followed by at least one decimal digit, anything else raises
`ValueError`. -/
def pyIntOfString (s : String) : Except PyErr ℤ :=
  match s.toList with
  | [] => .error .valueError
  | '-' :: rest =>
    if decDigitsOk rest then .ok (-(decDigitsVal rest : ℤ)) else .error .valueError
  | '+' :: rest =>
    if decDigitsOk rest then .ok ((decDigitsVal rest : ℤ)) else .error .valueError
  | l =>
    if decDigitsOk l then .ok ((decDigitsVal l : ℤ)) else .error .valueError

/-- Model of Python `s.split(":")`: maximal split on every colon, empty
pieces preserved (`"".split(":") == [""]`). -/
def splitColonChars : List Char → List (List Char)
  | [] => [[]]
  | c :: rest =>
    let r := splitColonChars rest
    if c = ':' then [] :: r
    else
      match r with
      | h :: t => (c :: h) :: t
      | [] => [[c]]

/-- Model of Python `asset_id.split(":")`. -/
def splitColon (s : String) : List String :=
  (splitColonChars s.toList).map (fun l => String.mk l)

/-- Model of Python `parts[i]` on a list (raises `IndexError` when out of
range). -/
def pyIndex {α : Type} (l : List α) (i : ℕ) : Except PyErr α :=
  match l.get? i with
  | some x => .ok x
  | none => .error .indexError

/-- Association-list lookup, first match: model of `d[k]` /`d.get(k)` for
the Python dicts used by the code (their keys are distinct). -/
def alistGet {κ α : Type} [DecidableEq κ] : List (κ × α) → κ → Option α
  | [], _ => none
  | (k, v) :: rest, key => if k = key then some v else alistGet rest key

/-- Association-list store: model of `d[k] = v` (replace in place, append
if new — Python dicts preserve insertion order). -/
def alistSet {κ α : Type} [DecidableEq κ] : List (κ × α) → κ → α → List (κ × α)
  | [], k, v => [(k, v)]
  | (k', v') :: rest, k, v =>
    if k' = k then (k', v) :: rest else (k', v') :: alistSet rest k v

/-- Round half to even to an integer: model of Python `round(x)` on an
exact value. -/
def roundHalfEvenZ (q : ℚ) : ℤ :=
  if q - ⌊q⌋ < 1/2 then ⌊q⌋
  else if 1/2 < q - ⌊q⌋ then ⌊q⌋ + 1
  else if ⌊q⌋ % 2 = 0 then ⌊q⌋ else ⌊q⌋ + 1

/-- Model of Python `round(x, 3)` (banker's rounding at 3 decimal places;
the source comment says "round down to 0.1%" but `round` does not round
down). -/
def pyRound3 (q : ℚ) : ℚ :=
  (roundHalfEvenZ (q * 1000) : ℚ) / 1000

/-!
Type definitions: `financial_engineering.py` lines 12-109 and
`margin.py` lines 12-103 define these identically, so they are embedded
once.
-/

/-- MarginType (`financial_engineering.py` lines 12-14). -/
inductive MarginType
  | INITIAL
  | MAINTENANCE
  deriving DecidableEq

/-- Integer value of a MarginType member. -/
def MarginType.val : MarginType → ℤ
  | .INITIAL => 1
  | .MAINTENANCE => 2

/-- Instrument (`financial_engineering.py` lines 17-21). -/
inductive Instrument
  | PERPETUAL
  | FUTURE
  | OPTION_CALL
  | OPTION_PUT
  deriving DecidableEq

/-- Integer value of an Instrument member. -/
def Instrument.val : Instrument → ℤ
  | .PERPETUAL => 1
  | .FUTURE => 2
  | .OPTION_CALL => 3
  | .OPTION_PUT => 4

/-- Model of the `IntEnum` constructor `Instrument(value)`: lookup by
value equality over the member values (which are the ints 1..4); any
other value — in particular every `str` — raises `ValueError`. -/
def Instrument.ofPy : PyVal → Except PyErr Instrument
  | .int 1 => .ok .PERPETUAL
  | .int 2 => .ok .FUTURE
  | .int 3 => .ok .OPTION_CALL
  | .int 4 => .ok .OPTION_PUT
  | _ => .error .valueError

/-- Asset (`financial_engineering.py` lines 24-28). -/
inductive Asset
  | USDC
  | ETH
  | BTC
  | OPTION_PUT
  deriving DecidableEq

/-- Integer value of an Asset member. -/
def Asset.val : Asset → ℤ
  | .USDC => 1
  | .ETH => 2
  | .BTC => 3
  | .OPTION_PUT => 4

/-- Model of the `IntEnum` constructor `Asset(value)`. -/
def Asset.ofPy : PyVal → Except PyErr Asset
  | .int 1 => .ok .USDC
  | .int 2 => .ok .ETH
  | .int 3 => .ok .BTC
  | .int 4 => .ok .OPTION_PUT
  | _ => .error .valueError

/-- encode_a (`financial_engineering.py` lines 31-32): `str(a)` on an
`IntEnum` member is the decimal string of its value. -/
def encode_a (a : Asset) : String :=
  toString a.val

/-- Derivative (`financial_engineering.py` lines 39-48). -/
structure Derivative where
  instrument : Instrument
  underlying_asset : Asset
  resolution : ℤ
  expiration_date : ℤ
  strike_price : ℤ
  deriving DecidableEq

/-- encode_d (`financial_engineering.py` lines 51-60): colon-join of the
five fields' `__str__()` strings. -/
def encode_d (d : Derivative) : String :=
  String.intercalate ":" [
    toString d.instrument.val,
    toString d.underlying_asset.val,
    toString d.resolution,
    toString d.expiration_date,
    toString d.strike_price
  ]

/-- decode_d (`financial_engineering.py` lines 63-72): split on colons,
then `Instrument(parts[0])`, `Asset(parts[1])`, `int(parts[2..4])`. The
parts are `str`s, and the enum constructors are value lookups against
`int` member values, so `Instrument(parts[0])` raises `ValueError` for
every input. Argument expressions are evaluated left to right, as in
Python. -/
def decode_d (asset_id : String) : Except PyErr Derivative :=
  let parts := splitColon asset_id
  match pyIndex parts 0 with
  | .error e => .error e
  | .ok p0 =>
    match Instrument.ofPy (.str p0) with
    | .error e => .error e
    | .ok i =>
      match pyIndex parts 1 with
      | .error e => .error e
      | .ok p1 =>
        match Asset.ofPy (.str p1) with
        | .error e => .error e
        | .ok a =>
          match pyIndex parts 2 with
          | .error e => .error e
          | .ok p2 =>
            match pyIntOfString p2 with
            | .error e => .error e
            | .ok r =>
              match pyIndex parts 3 with
              | .error e => .error e
              | .ok p3 =>
                match pyIntOfString p3 with
                | .error e => .error e
                | .ok ex =>
                  match pyIndex parts 4 with
                  | .error e => .error e
                  | .ok p4 =>
                    match pyIntOfString p4 with
                    | .error e => .error e
                    | .ok k => .ok ⟨i, a, r, ex, k⟩

/-- Position (`financial_engineering.py` lines 75-90). -/
structure Position where
  asset_id : String
  balance : ℚ
  cached_funding_index : ℚ
  deriving DecidableEq

/-- Vault (`financial_engineering.py` lines 93-109). -/
structure Vault where
  public_key : String
  collateral : Asset
  collateral_balance : ℚ
  positions : List Position
  deriving DecidableEq

/-- AssetConfig (`financial_engineering.py` lines 252-261). -/
structure AssetConfig where
  future_variable_margin : ℚ
  future_initial_margin : ℚ
  future_maintenance_margin : ℚ
  option_initial_margin : ℚ
  option_maintenance_margin : ℚ
  spot_range_simulation : ℚ
  vol_range_simulation : ℚ
  risk_free_rate : ℚ
  deriving DecidableEq

/-- PORTFOLIO_MARGIN_INITIAL_MULTIPLIER (`financial_engineering.py`
line 249): 1.3. -/
def PORTFOLIO_MARGIN_INITIAL_MULTIPLIER : ℚ := 13/10

/-- Argument record for the external option-pricing capability
(`py_vollib`). `implied_volatility` and `black_scholes` are consumed as
abstract total functions over the exact argument tuples the source
passes. The time-to-expiry argument has type `ℚ × ℚ × ℚ` because the
source line `years_to_expiry = secs_to_expiry / 31, 536, 000`
(`financial_engineering.py` line 450) builds a 3-tuple
`(secs_to_expiry / 31, 536, 0)`, which is then passed as the `t`
argument of both calls. -/
structure OptionPricer where
  implied_volatility : ℚ → ℚ → ℚ → (ℚ × ℚ × ℚ) → ℚ → Char → ℚ
  black_scholes : ℚ → ℚ → ℚ → ℚ → (ℚ × ℚ × ℚ) → ℚ → ℚ

namespace FE

/-!
Embedding of `src/financial_engineering.py` (the variant with settlement
support). `NOW` (module global, `round(time())` at import) is passed as
an explicit parameter `now` where the source reads it.
-/

/-- Prices (`financial_engineering.py` lines 235-240). -/
structure Prices where
  oracle_index : List (String × ℚ)
  market : List (String × ℚ)
  moving_avg : List (String × ℚ)
  settled : List (String × ℚ)
  deriving DecidableEq

/-- SETTLEMENT_MASK (`financial_engineering.py` line 232):
`str(0x004000fff000000)`. -/
def SETTLEMENT_MASK : String :=
  toString (0x004000fff000000 : ℕ)

/-- Sources list built by get_spot_mark_price
(`financial_engineering.py` lines 278-284) once the mandatory
oracle_index entry `o` has been read: `market` and `moving_avg` entries
are appended whenever the key is present (the Python test
`market != None` is key-presence, since every stored float, `0.0`
included, differs from `None`). -/
def spot_extra_sources (asset_id : String) (prices : Prices) : List ℚ :=
  (match alistGet prices.market asset_id with
   | some market => [market]
   | none => []) ++
  (match alistGet prices.moving_avg asset_id with
   | some moving_avg => [moving_avg]
   | none => [])

/-- get_spot_mark_price (`financial_engineering.py` lines 274-285):
average of oracle_index (mandatory: `prices.oracle_index[asset_id]`
raises `KeyError` when absent) plus market and moving average when
present. -/
def get_spot_mark_price (asset_id : String) (prices : Prices) : Except PyErr ℚ :=
  match alistGet prices.oracle_index asset_id with
  | none => .error .keyError
  | some o =>
    let sources := o :: spot_extra_sources asset_id prices
    .ok (sources.sum / (sources.length : ℚ))

/-- get_deriv_settled_price (`financial_engineering.py` lines 288-302):
the settled map is keyed by `str(int(asset_id) & int(SETTLEMENT_MASK))`;
`int(asset_id)` is evaluated first and raises `ValueError` whenever
`asset_id` is not a decimal string (every colon-separated encoded
identity). The trailing `return None` (source line 302, reached for a
perpetual with a settled entry) is modelled by the `.PERPETUAL` case. -/
def get_deriv_settled_price (asset_id : String) (prices : Prices) :
    Except PyErr (Option ℚ) :=
  match pyIntOfString asset_id with
  | .error e => .error e
  | .ok n =>
    match pyIntOfString SETTLEMENT_MASK with
    | .error e => .error e
    | .ok m =>
      match alistGet prices.settled (toString (Int.land n m)) with
      | none => .ok none
      | some settled_price =>
        match decode_d asset_id with
        | .error e => .error e
        | .ok deriv =>
          match deriv.instrument with
          | .FUTURE => .ok (some settled_price)
          | .OPTION_CALL => .ok (some (max 0 (settled_price - (deriv.strike_price : ℚ))))
          | .OPTION_PUT => .ok (some (max 0 (settled_price - (deriv.strike_price : ℚ))))
          | .PERPETUAL => .ok none

/-- get_deriv_mark_price (`financial_engineering.py` lines 305-323):
settled price short-circuits; otherwise oracle_index is a mandatory
source for perpetuals/futures, with market and moving-average entries
averaged in when present; `sum([]) / len([])` raises
`ZeroDivisionError` when no source is available. -/
def get_deriv_mark_price (asset_id : String) (prices : Prices) : Except PyErr ℚ :=
  match get_deriv_settled_price asset_id prices with
  | .error e => .error e
  | .ok (some settled_price) => .ok settled_price
  | .ok none =>
    match decode_d asset_id with
    | .error e => .error e
    | .ok deriv =>
      let base : Except PyErr (List ℚ) :=
        match deriv.instrument with
        | .PERPETUAL | .FUTURE =>
          match alistGet prices.oracle_index (encode_a deriv.underlying_asset) with
          | none => .error .keyError
          | some o => .ok [o]
        | .OPTION_CALL | .OPTION_PUT => .ok []
      match base with
      | .error e => .error e
      | .ok b =>
        let sources := b ++ spot_extra_sources asset_id prices
        if sources.isEmpty then .error .zeroDivisionError
        else .ok (sources.sum / (sources.length : ℚ))

/-- Fixed margin percentage picked by the perpetual/future branch of
get_vault_simple_margin (`financial_engineering.py` line 381). The
source condition is `margin.MAINTENANCE` — an attribute access that
yields the enum member `MarginType.MAINTENANCE` (value 2, always
truthy), not a comparison against `margin` — so the maintenance
percentage is chosen for both margin types. The `margin` parameter is
kept because the source expression mentions it (as the object whose
attribute is read). -/
def future_fixed_margin (c : AssetConfig) (margin : MarginType) : ℚ :=
  if MarginType.MAINTENANCE.val != 0 then c.future_maintenance_margin
  else c.future_initial_margin

/-- Fixed margin percentage picked by the option branch
(`financial_engineering.py` line 390); same truthy-attribute condition
as `future_fixed_margin`. -/
def option_fixed_margin (c : AssetConfig) (margin : MarginType) : ℚ :=
  if MarginType.MAINTENANCE.val != 0 then c.option_maintenance_margin
  else c.option_initial_margin

/-- Per-position contribution of the perpetual/future branch of
get_vault_simple_margin (`financial_engineering.py` lines 380-386), as a
function of the derivative notional `size * deriv_mark_price`. -/
def future_margin_contribution (c : AssetConfig) (margin : MarginType)
    (deriv_notional : ℚ) : ℚ :=
  let fixed_margin := future_fixed_margin c margin
  let variable_margin := pyRound3 (deriv_notional / c.future_variable_margin)
  let ratio_val := min 1 (fixed_margin + variable_margin)
  |deriv_notional * ratio_val|

/-- Per-position contribution of the short-option branch of
get_vault_simple_margin (`financial_engineering.py` lines 387-391). -/
def option_margin_contribution (c : AssetConfig) (margin : MarginType)
    (spot_notional deriv_notional : ℚ) : ℚ :=
  let fixed_margin := option_fixed_margin c margin
  |spot_notional * fixed_margin + deriv_notional|

/-- Loop body of get_vault_simple_margin (`financial_engineering.py`
lines 368-392), folded over the position list. Per position: the
settled check runs first (and can raise), settled positions are
skipped, then decode, then the derivative mark price, then the config
lookup (`conf[underlying]`, `KeyError` when absent), then the
instrument branch; a long option matches no branch and contributes
nothing. -/
def simple_margin_go (prices : Prices) (conf : List (Asset × AssetConfig))
    (margin : MarginType) : List Position → ℚ → Except PyErr ℚ
  | [], total_margin => .ok total_margin
  | position :: rest, total_margin =>
    match get_deriv_settled_price position.asset_id prices with
    | .error e => .error e
    | .ok (some _) => simple_margin_go prices conf margin rest total_margin
    | .ok none =>
      match decode_d position.asset_id with
      | .error e => .error e
      | .ok deriv =>
        let size := position.balance
        match get_deriv_mark_price position.asset_id prices with
        | .error e => .error e
        | .ok mark_price =>
          let deriv_notional := size * mark_price
          match alistGet conf deriv.underlying_asset with
          | none => .error .keyError
          | some c =>
            match deriv.instrument with
            | .PERPETUAL | .FUTURE =>
              simple_margin_go prices conf margin rest
                (total_margin + future_margin_contribution c margin deriv_notional)
            | .OPTION_CALL | .OPTION_PUT =>
              if size < 0 then
                match get_spot_mark_price (encode_a deriv.underlying_asset) prices with
                | .error e => .error e
                | .ok spot_mark_price =>
                  simple_margin_go prices conf margin rest
                    (total_margin +
                      option_margin_contribution c margin (size * spot_mark_price) deriv_notional)
              else simple_margin_go prices conf margin rest total_margin

/-- get_vault_simple_margin (`financial_engineering.py` lines 344-392). -/
def get_vault_simple_margin (vault : Vault) (prices : Prices)
    (conf : List (Asset × AssetConfig)) (margin : MarginType) : Except PyErr ℚ :=
  simple_margin_go prices conf margin vault.positions 0

/-- Model of `position_by_asset.setdefault(underlying, []).append(position)`
(`financial_engineering.py` lines 423-424) on an insertion-ordered
association list: append to the existing group, or add a new group at
the end. -/
def setdefaultAppend : List (Asset × List Position) → Asset → Position →
    List (Asset × List Position)
  | [], a, p => [(a, [p])]
  | (k, l) :: rest, a, p =>
    if k = a then (k, l ++ [p]) :: rest
    else (k, l) :: setdefaultAppend rest a p

/-- Partition loop of get_vault_portfolio_margin
(`financial_engineering.py` lines 416-424). Note the settled check here
is `prices.settled.get(position.asset_id, None)` — the raw identity, not
the masked settlement key used elsewhere. Non-skipped positions are
decoded (which can raise) and grouped by underlying via
`dict.setdefault(...).append(...)`, preserving insertion order. -/
def partition_go (prices : Prices) :
    List Position → List (Asset × List Position) →
    Except PyErr (List (Asset × List Position))
  | [], acc => .ok acc
  | position :: rest, acc =>
    match alistGet prices.settled position.asset_id with
    | some _ => partition_go prices rest acc
    | none =>
      match decode_d position.asset_id with
      | .error e => .error e
      | .ok deriv =>
        partition_go prices rest (setdefaultAppend acc deriv.underlying_asset position)

/-- Position-loop body of one scenario (`financial_engineering.py` lines
437-478), threading the running scenario PnL, the per-underlying
implied-volatility cache, and a counter of invocations of the external
implied-volatility solver. The counter increments on every option
position in every scenario because the default argument of
`iv_cache.get(asset_id, implied_volatility(...))` (source lines 451-458)
is evaluated eagerly, before the cache lookup. The source re-reads
`conf[underlying]` for the risk-free rate (lines 456 and 466); that
lookup already succeeded in the enclosing loop, so it is modelled by the
same `c`. -/
def scen_positions_go (pricer : OptionPricer) (now : ℤ) (prices : Prices)
    (c : AssetConfig) (spot_mark_price spot_move vol_move : ℚ) :
    List Position → ℚ → List (String × ℚ) → ℕ →
    (Except PyErr (ℚ × List (String × ℚ))) × ℕ
  | [], simulation_pnl, iv_cache, cnt => (.ok (simulation_pnl, iv_cache), cnt)
  | position :: rest, simulation_pnl, iv_cache, cnt =>
    match decode_d position.asset_id with
    | .error e => (.error e, cnt)
    | .ok deriv =>
      let size := position.balance
      match deriv.instrument with
      | .PERPETUAL | .FUTURE =>
        let simulated_price := spot_mark_price * (1 + spot_move)
        let unit_pnl := simulated_price - spot_mark_price
        scen_positions_go pricer now prices c spot_mark_price spot_move vol_move
          rest (simulation_pnl + size * unit_pnl) iv_cache cnt
      | .OPTION_CALL | .OPTION_PUT =>
        match alistGet prices.market position.asset_id with
        | none => (.error .keyError, cnt)
        | some mark_price =>
          let flag := if deriv.instrument = .OPTION_CALL then 'c' else 'p'
          let secs_to_expiry : ℤ := deriv.expiration_date * 86400 + 28800 - now
          -- source line 450: `secs_to_expiry / 31, 536, 000` is a 3-tuple
          let years_to_expiry : ℚ × ℚ × ℚ := ((secs_to_expiry : ℚ) / 31, 536, 0)
          let iv_default := pricer.implied_volatility mark_price spot_mark_price
            (deriv.strike_price : ℚ) years_to_expiry c.risk_free_rate flag
          let current_iv := (alistGet iv_cache position.asset_id).getD iv_default
          let iv_cache' := alistSet iv_cache position.asset_id current_iv
          let simulated_price := pricer.black_scholes mark_price
            (spot_mark_price * (1 + spot_move)) (deriv.strike_price : ℚ)
            (current_iv + vol_move) years_to_expiry c.risk_free_rate
          let unit_pnl := simulated_price - mark_price
          let simulation_pnl' :=
            if deriv.instrument = .OPTION_CALL then
              if size > 0 then simulation_pnl + max 0 (size * unit_pnl)
              else simulation_pnl + min 0 (size * unit_pnl)
            else
              if size > 0 then simulation_pnl - max 0 (size * unit_pnl)
              else simulation_pnl - min 0 (size * unit_pnl)
          scen_positions_go pricer now prices c spot_mark_price spot_move vol_move
            rest simulation_pnl' iv_cache' (cnt + 1)

/-- Scenario grid of one underlying (`financial_engineering.py` lines
434-435): `for spot_move in [srs, -srs]: for vol_move in [vrs, -vrs]`,
in that iteration order. -/
def scen_list (c : AssetConfig) : List (ℚ × ℚ) :=
  [(c.spot_range_simulation, c.vol_range_simulation),
   (c.spot_range_simulation, -c.vol_range_simulation),
   (-c.spot_range_simulation, c.vol_range_simulation),
   (-c.spot_range_simulation, -c.vol_range_simulation)]

/-- Scenario loop of one underlying (`financial_engineering.py` lines
434-480). After each scenario the source executes
`max_loss_pnl_by_asset[underlying] = min(max_loss_pnl_by_asset[underlying],
simulation_pnl)` (lines 479-480) — the read on the right-hand side
raises `KeyError` because the key was never initialized for this
underlying. -/
def scen_run (pricer : OptionPricer) (now : ℤ) (prices : Prices)
    (c : AssetConfig) (spot_mark_price : ℚ) (underlying : Asset)
    (positions : List Position) :
    List (ℚ × ℚ) → List (String × ℚ) → List (Asset × ℚ) → ℕ →
    (Except PyErr (List (Asset × ℚ) × List (String × ℚ))) × ℕ
  | [], iv_cache, max_loss, cnt => (.ok (max_loss, iv_cache), cnt)
  | (spot_move, vol_move) :: rest, iv_cache, max_loss, cnt =>
    match scen_positions_go pricer now prices c spot_mark_price spot_move vol_move
        positions 0 iv_cache cnt with
    | (.error e, cnt') => (.error e, cnt')
    | (.ok (simulation_pnl, iv_cache'), cnt') =>
      match alistGet max_loss underlying with
      | none => (.error .keyError, cnt')
      | some prev =>
        scen_run pricer now prices c spot_mark_price underlying positions
          rest iv_cache' (alistSet max_loss underlying (min prev simulation_pnl)) cnt'

/-- Outer per-underlying loop of get_vault_portfolio_margin
(`financial_engineering.py` lines 428-480): `conf[underlying]`
(`KeyError` when absent), a fresh empty implied-volatility cache per
underlying (line 432), the spot mark price for the underlying, then the
four scenarios. -/
def assets_go (pricer : OptionPricer) (now : ℤ) (prices : Prices)
    (conf : List (Asset × AssetConfig)) :
    List (Asset × List Position) → List (Asset × ℚ) → ℕ →
    (Except PyErr (List (Asset × ℚ))) × ℕ
  | [], max_loss, cnt => (.ok max_loss, cnt)
  | (underlying, positions) :: rest, max_loss, cnt =>
    match alistGet conf underlying with
    | none => (.error .keyError, cnt)
    | some c =>
      match get_spot_mark_price (encode_a underlying) prices with
      | .error e => (.error e, cnt)
      | .ok spot_mark_price =>
        match scen_run pricer now prices c spot_mark_price underlying positions
            (scen_list c) [] max_loss cnt with
        | (.error e, cnt') => (.error e, cnt')
        | (.ok (max_loss', _), cnt') =>
          assets_go pricer now prices conf rest max_loss' cnt'

/-- get_vault_portfolio_margin (`financial_engineering.py` lines
397-490), instrumented with the number of invocations of the external
implied-volatility solver performed before the call returned or raised.
The final steps sum the per-underlying max losses (in insertion order)
and apply the 1.3 multiplier exactly for `MarginType.INITIAL` (source
lines 482-490; here the comparison is a real `==`). -/
def get_vault_portfolio_margin_run (pricer : OptionPricer) (now : ℤ)
    (vault : Vault) (prices : Prices) (conf : List (Asset × AssetConfig))
    (margin : MarginType) : (Except PyErr ℚ) × ℕ :=
  match partition_go prices vault.positions [] with
  | .error e => (.error e, 0)
  | .ok position_by_asset =>
    match assets_go pricer now prices conf position_by_asset [] 0 with
    | (.error e, cnt) => (.error e, cnt)
    | (.ok max_loss_by_asset, cnt) =>
      let max_loss_pnl := (max_loss_by_asset.map Prod.snd).sum
      if margin = .INITIAL then
        (.ok (PORTFOLIO_MARGIN_INITIAL_MULTIPLIER * |max_loss_pnl|), cnt)
      else (.ok |max_loss_pnl|, cnt)

/-- get_vault_portfolio_margin (`financial_engineering.py` lines
397-490): the value component of the instrumented run. -/
def get_vault_portfolio_margin (pricer : OptionPricer) (now : ℤ)
    (vault : Vault) (prices : Prices) (conf : List (Asset × AssetConfig))
    (margin : MarginType) : Except PyErr ℚ :=
  (get_vault_portfolio_margin_run pricer now vault prices conf margin).1

/-- get_vault_margin (`financial_engineering.py` lines 330-339):
`min(simple, portfolio)`, with the simple margin evaluated first, as in
the source argument order. -/
def get_vault_margin (pricer : OptionPricer) (now : ℤ) (vault : Vault)
    (prices : Prices) (conf : List (Asset × AssetConfig))
    (margin : MarginType) : Except PyErr ℚ :=
  match get_vault_simple_margin vault prices conf margin with
  | .error e => .error e
  | .ok simple =>
    match get_vault_portfolio_margin pricer now vault prices conf margin with
    | .error e => .error e
    | .ok pm => .ok (min simple pm)

/-- Loop body of get_vault_balance (`financial_engineering.py` lines
497-506): `balance += size * get_deriv_mark_price(asset_id, prices)`
for every position, with no instrument dispatch and no clamping. -/
def balance_go (prices : Prices) : List Position → ℚ → Except PyErr ℚ
  | [], balance => .ok balance
  | position :: rest, balance =>
    match get_deriv_mark_price position.asset_id prices with
    | .error e => .error e
    | .ok mark_price => balance_go prices rest (balance + position.balance * mark_price)

/-- get_vault_balance (`financial_engineering.py` lines 497-506). -/
def get_vault_balance (vault : Vault) (prices : Prices) : Except PyErr ℚ :=
  balance_go prices vault.positions vault.collateral_balance

/-- get_vault_status (`financial_engineering.py` lines 513-519):
`balance >= margin(MAINTENANCE)`, balance evaluated first. -/
def get_vault_status (pricer : OptionPricer) (now : ℤ) (vault : Vault)
    (prices : Prices) (conf : List (Asset × AssetConfig)) : Except PyErr Bool :=
  match get_vault_balance vault prices with
  | .error e => .error e
  | .ok balance =>
    match get_vault_margin pricer now vault prices conf .MAINTENANCE with
    | .error e => .error e
    | .ok m => .ok (decide (balance ≥ m))

end FE

namespace MG

/-!
Embedding of the parts of `src/margin.py` (the earlier draft without
settlement support) that the claims reference: `get_deriv_mark_price`
and `get_vault_balance`.
-/

/-- Prices (`margin.py` lines 196-201): three maps, no settled map. -/
structure Prices where
  oracle_index : List (String × ℚ)
  market : List (String × ℚ)
  moving_avg : List (String × ℚ)
  deriving DecidableEq

/-- Optional market/moving-average sources of `margin.py`'s price
functions (lines 253-258): `prices.market.get(asset_id, 0.0)` followed
by `if market > 0.0`, so a stored non-positive price is *not* counted
(unlike the `!= None` test in `financial_engineering.py`). -/
def extra_sources (asset_id : String) (prices : Prices) : List ℚ :=
  (if ((alistGet prices.market asset_id).getD 0) > 0 then
    [(alistGet prices.market asset_id).getD 0] else []) ++
  (if ((alistGet prices.moving_avg asset_id).getD 0) > 0 then
    [(alistGet prices.moving_avg asset_id).getD 0] else [])

/-- get_deriv_mark_price (`margin.py` lines 244-259): decodes the
identity first (line 249), adds the mandatory oracle_index source for
perpetuals/futures, then the optional sources; `sum([]) / len([])`
raises `ZeroDivisionError`. -/
def get_deriv_mark_price (asset_id : String) (prices : Prices) : Except PyErr ℚ :=
  match decode_d asset_id with
  | .error e => .error e
  | .ok deriv =>
    let base : Except PyErr (List ℚ) :=
      match deriv.instrument with
      | .PERPETUAL | .FUTURE =>
        match alistGet prices.oracle_index (encode_a deriv.underlying_asset) with
        | none => .error .keyError
        | some o => .ok [o]
      | .OPTION_CALL | .OPTION_PUT => .ok []
    match base with
    | .error e => .error e
    | .ok b =>
      let sources := b ++ extra_sources asset_id prices
      if sources.isEmpty then .error .zeroDivisionError
      else .ok (sources.sum / (sources.length : ℚ))

/-- Loop body of get_vault_balance (`margin.py` lines 426-449): each
position is decoded, then perpetuals/futures contribute
`size * mark_price` unclamped, calls contribute the clamped value
(`max(0, value)` when long, `min(0, value)` when short), and puts
contribute the negated clamped value. -/
def balance_go (prices : Prices) : List Position → ℚ → Except PyErr ℚ
  | [], balance => .ok balance
  | position :: rest, balance =>
    match decode_d position.asset_id with
    | .error e => .error e
    | .ok deriv =>
      let size := position.balance
      match deriv.instrument with
      | .PERPETUAL | .FUTURE =>
        match get_deriv_mark_price position.asset_id prices with
        | .error e => .error e
        | .ok mark_price => balance_go prices rest (balance + size * mark_price)
      | .OPTION_CALL =>
        match get_deriv_mark_price position.asset_id prices with
        | .error e => .error e
        | .ok mark_price =>
          let value := size * mark_price
          balance_go prices rest
            (balance + (if size > 0 then max 0 value else min 0 value))
      | .OPTION_PUT =>
        match get_deriv_mark_price position.asset_id prices with
        | .error e => .error e
        | .ok mark_price =>
          let value := size * mark_price
          balance_go prices rest
            (balance - (if size > 0 then max 0 value else min 0 value))

/-- get_vault_balance (`margin.py` lines 426-449). -/
def get_vault_balance (vault : Vault) (prices : Prices) : Except PyErr ℚ :=
  balance_go prices vault.positions vault.collateral_balance

end MG

/-!
Concrete fixtures used by the claim theorems, mirroring the sample data
of the source (ETH config `AssetConfig(50000, 0.01, 0.02, 0.05, 0.10,
0.2, 0.45, 0.0)`, ETH oracle price 1182.42, call mark 848.23). The
option expiry day 19300 is an arbitrary concrete value standing for
`UNIX_DAYS_NOW + 10`.
-/

/-- ETH entry of ASSET_CONFIG (`financial_engineering.py` line 265). -/
def ethCfg : AssetConfig :=
  ⟨50000, 1/100, 1/50, 1/20, 1/10, 1/5, 9/20, 0⟩

/-- Config map holding only the ETH entry. -/
def confDemo : List (Asset × AssetConfig) :=
  [(.ETH, ethCfg)]

/-- ETH perpetual (SAMPLE_PERP shape). -/
def perpETH : Derivative :=
  ⟨.PERPETUAL, .ETH, 4, 0, 0⟩

/-- ETH call option, strike 1200 (SAMPLE_CALL shape). -/
def callETH : Derivative :=
  ⟨.OPTION_CALL, .ETH, 4, 19300, 1200⟩

/-- Encoded identity of `perpETH`: the string "1:2:4:0:0". -/
def perpId : String := encode_d perpETH

/-- Encoded identity of `callETH`: the string "3:2:4:19300:1200". -/
def callId : String := encode_d callETH

/-- Price snapshot: ETH spot 1182.42 from the oracle, a market quote for
the call, nothing settled. -/
def pricesDemo : FE.Prices :=
  ⟨[(encode_a .ETH, 1182.42)], [(callId, 848.23)], [], []⟩

/-- Price snapshot with no market quote and no moving average for the
call: the call option has zero available price sources. -/
def pricesNoOptSource : FE.Prices :=
  ⟨[(encode_a .ETH, 1182.42)], [], [], []⟩

/-- margin.py price snapshot (no settled map). -/
def pricesDemoMG : MG.Prices :=
  ⟨[(encode_a .ETH, 1182.42)], [(callId, 848.23)], []⟩

/-- Vault holding a single short ETH perpetual position. -/
def vaultOnePerp : Vault :=
  ⟨"0xdeadbeef", .USDC, 1000000, [⟨perpId, -500, 0⟩]⟩

/-- Vault holding a single long ETH call position. -/
def vaultOneCall : Vault :=
  ⟨"0xdeadbeef", .USDC, 1000000, [⟨callId, 1000, 0⟩]⟩

/-- Degenerate concrete instantiation of the external option-pricing
capability (its value is irrelevant to every theorem below: the code
paths fail before invoking it). -/
def zeroPricer : OptionPricer :=
  ⟨fun _ _ _ _ _ _ => 0, fun _ _ _ _ _ _ => 0⟩

/-- C1: refuted on the code as written. The claim says
get_vault_portfolio_margin enumerates four stress scenarios per
underlying, takes the per-underlying minimum scenario PnL, sums, and
scales by 1.3/1.0. On a vault holding a single non-settled ETH
perpetual, the call instead raises: the partition loop decodes the
identity "1:2:4:0:0" and `Instrument(parts[0])` fails on the string
part (and, were decoding repaired, the first scenario's
`min(max_loss_pnl_by_asset[underlying], ...)` would read an
uninitialized key and raise `KeyError`). -/
theorem c1_portfolio_margin_raises_on_one_perp_vault :
    FE.get_vault_portfolio_margin zeroPricer 0 vaultOnePerp pricesDemo confDemo
      .INITIAL = .error .valueError := rfl

/-- C2: refuted on the code as written. The claim says a single call of
get_vault_portfolio_margin solves the baseline implied volatility of an
option position exactly once and reuses it across the four stress
scenarios. On a vault holding one ETH call with a market quote, the
instrumented run shows the external solver is invoked zero times and the
call raises before any scenario runs (decode of "3:2:4:19300:1200"
fails); the claimed solve-once-and-reuse behaviour never occurs. (The
caching pattern itself is also defective: `iv_cache.get(asset_id,
implied_volatility(...))` evaluates the solve eagerly on every scenario
iteration, which is why `scen_positions_go` counts one invocation per
option per scenario.) -/
theorem c2_iv_solver_never_invoked_on_one_call_vault :
    FE.get_vault_portfolio_margin_run zeroPricer 0 vaultOneCall pricesDemo
      confDemo .INITIAL = (.error .valueError, 0) := rfl

/-- C3: refuted on the code as written. The claim says a non-settled
perpetual contributes `|notional * ratio|` to get_vault_simple_margin
with the fixed percentage chosen by the MarginType argument. Instead:
(a) on a vault holding one ETH perpetual the function raises `ValueError`
in the settlement check (`int("1:2:4:0:0")`) before computing any
contribution, and (b) even in the branch formulas the fixed percentage
for `MarginType.INITIAL` is the *maintenance* percentage, because the
source condition `margin.MAINTENANCE` is a truthy enum member, for the
future branch and the option branch alike. -/
theorem c3_simple_margin_raises_and_initial_uses_maintenance_pct :
    FE.get_vault_simple_margin vaultOnePerp pricesDemo confDemo .INITIAL
        = .error .valueError ∧
      FE.future_fixed_margin ethCfg .INITIAL = ethCfg.future_maintenance_margin ∧
      FE.option_fixed_margin ethCfg .INITIAL = ethCfg.option_maintenance_margin :=
  ⟨rfl, rfl, rfl⟩

/-- C4: refuted on the code as written. The claim says
get_deriv_settled_price returns no price exactly when the settled map
has no entry under the masked settlement key. For every identity
produced by encode_d the function instead raises `ValueError`:
`int(asset_id)` is applied to a colon-separated string
("1:2:4:0:0" here) before the mask is applied. -/
theorem c4_settled_price_raises_on_encoded_identity :
    FE.get_deriv_settled_price (encode_d perpETH) pricesDemo
      = .error .valueError := rfl

/-- C5: refuted on the code as written. The claim says get_vault_balance
returns collateral plus clamped mark-to-market values. On a vault
holding one ETH call, the `financial_engineering.py` version raises
`ValueError` (settlement-mask `int()` cast inside the mark-price call)
and the `margin.py` version — the one whose branches actually implement
the claimed clamping — raises `ValueError` at identity decode. (The
`financial_engineering.py` version, the one belonging to the same module
as the margin functions, moreover applies no clamping at all in its
formula: every position contributes `size * mark_price`.) -/
theorem c5_vault_balance_raises_on_one_call_vault :
    FE.get_vault_balance vaultOneCall pricesDemo = .error .valueError ∧
      MG.get_vault_balance vaultOneCall pricesDemoMG = .error .valueError :=
  ⟨rfl, rfl⟩

/-- C6: refuted on the code as written. The claim says
`decode_d(encode_d(d)) == d` for every valid Derivative. Decoding
always raises `ValueError`: the decoder calls `Instrument(parts[0])`
with a `str`, and an `IntEnum` constructor only matches `int` member
values. Witnessed on the ETH perpetual, whose encoding is
"1:2:4:0:0". -/
theorem c6_decode_encode_round_trip_fails :
    decode_d (encode_d perpETH) = .error .valueError ∧
      decode_d (encode_d perpETH) ≠ .ok perpETH := by
  have h1 : decode_d (encode_d perpETH) = .error .valueError := rfl
  exact ⟨h1, by rw [h1]; simp⟩

/-- C7: refuted on the code as written. The claim says a non-settled
option with zero price sources makes get_deriv_mark_price fail with the
zero-source "NoPriceSource" failure (in the source: `sum([]) / len([])`,
a `ZeroDivisionError`). The function does fail — it never returns a
default price of zero — but with `ValueError` raised already in the
settlement check (`int("3:2:4:19300:1200")`), before sources are ever
counted, so the claimed failure mode is unreachable. -/
theorem c7_mark_price_raises_before_source_check :
    FE.get_deriv_mark_price callId pricesNoOptSource = .error .valueError ∧
      FE.get_deriv_mark_price callId pricesNoOptSource ≠ .ok 0 := by
  have h1 : FE.get_deriv_mark_price callId pricesNoOptSource = .error .valueError := rfl
  exact ⟨h1, by rw [h1]; simp⟩

/-!
Average-within-bounds facts for C8: the running minimum (resp. maximum)
of a seed and a list bounds the arithmetic mean of the seed and the list
from below (resp. above).
-/

theorem foldl_min_le_seed : ∀ (l : List ℚ) (d : ℚ), l.foldl min d ≤ d
  | [], d => le_refl d
  | x :: xs, d => le_trans (foldl_min_le_seed xs (min d x)) (min_le_left d x)

theorem seed_le_foldl_max : ∀ (l : List ℚ) (d : ℚ), d ≤ l.foldl max d
  | [], d => le_refl d
  | x :: xs, d => le_trans (le_max_left d x) (seed_le_foldl_max xs (max d x))

theorem foldl_min_mul_length_le :
    ∀ (l : List ℚ) (d : ℚ), (l.foldl min d) * ((l.length : ℚ) + 1) ≤ d + l.sum
  | [], d => by simp
  | x :: xs, d => by
    have ihx := foldl_min_mul_length_le xs (min d x)
    have hm : xs.foldl min (min d x) ≤ min d x := foldl_min_le_seed xs (min d x)
    have h1 : xs.foldl min (min d x) ≤ x := le_trans hm (min_le_right d x)
    have h2 : min d x ≤ d := min_le_left d x
    have hlen : ((x :: xs).length : ℚ) = (xs.length : ℚ) + 1 := by
      push_cast [List.length_cons]
      ring
    have hexp : xs.foldl min (min d x) * ((xs.length : ℚ) + 1 + 1)
        = xs.foldl min (min d x) * ((xs.length : ℚ) + 1) + xs.foldl min (min d x) := by
      ring
    simp only [List.foldl_cons, List.sum_cons, hlen, hexp]
    linarith

theorem le_foldl_max_mul_length :
    ∀ (l : List ℚ) (d : ℚ), d + l.sum ≤ (l.foldl max d) * ((l.length : ℚ) + 1)
  | [], d => by simp
  | x :: xs, d => by
    have ihx := le_foldl_max_mul_length xs (max d x)
    have hm : max d x ≤ xs.foldl max (max d x) := seed_le_foldl_max xs (max d x)
    have h1 : x ≤ xs.foldl max (max d x) := le_trans (le_max_right d x) hm
    have h2 : d ≤ max d x := le_max_left d x
    have hlen : ((x :: xs).length : ℚ) = (xs.length : ℚ) + 1 := by
      push_cast [List.length_cons]
      ring
    have hexp : xs.foldl max (max d x) * ((xs.length : ℚ) + 1 + 1)
        = xs.foldl max (max d x) * ((xs.length : ℚ) + 1) + xs.foldl max (max d x) := by
      ring
    simp only [List.foldl_cons, List.sum_cons, hlen, hexp]
    linarith

/-- C8: confirmed. Whenever the oracle_index price of an asset is
present (the claim's hypothesis; its absence would raise `KeyError`),
get_spot_mark_price succeeds and the returned average lies within
[min, max] of the contributing sources — the oracle price `o` together
with whichever market/moving-average entries are present. -/
theorem c8_spot_mark_price_within_source_bounds (asset_id : String)
    (prices : FE.Prices) (o : ℚ)
    (h : alistGet prices.oracle_index asset_id = some o) :
    ∃ q, FE.get_spot_mark_price asset_id prices = .ok q ∧
      (FE.spot_extra_sources asset_id prices).foldl min o ≤ q ∧
      q ≤ (FE.spot_extra_sources asset_id prices).foldl max o := by
  refine ⟨(o :: FE.spot_extra_sources asset_id prices).sum /
      (((o :: FE.spot_extra_sources asset_id prices).length : ℕ) : ℚ), ?_, ?_, ?_⟩
  · unfold FE.get_spot_mark_price
    rw [h]
  · set L := FE.spot_extra_sources asset_id prices with hL
    simp only [List.sum_cons, List.length_cons]
    rw [le_div_iff]
    · push_cast
      have := foldl_min_mul_length_le L o
      linarith
    · push_cast
      positivity
  · set L := FE.spot_extra_sources asset_id prices with hL
    simp only [List.sum_cons, List.length_cons]
    rw [div_le_iff]
    · push_cast
      have := le_foldl_max_mul_length L o
      linarith
    · push_cast
      positivity

/-- Price snapshot for the C8 witness: only the ETH oracle entry
1182.42 is present — no market entry, no moving average. -/
def pricesOracleOnly : FE.Prices :=
  ⟨[(encode_a .ETH, 1182.42)], [], [], []⟩

/-- Witness for C8 at the spec's own example: with only
`oracle_index = 1182.42` present, the hypothesis holds, the bounds hold,
and the function returns exactly 1182.42 — no division error. -/
theorem c8_spot_mark_price_within_source_bounds_witness :
    alistGet pricesOracleOnly.oracle_index (encode_a .ETH) = some 1182.42 ∧
      (∃ q, FE.get_spot_mark_price (encode_a .ETH) pricesOracleOnly = .ok q ∧
        (FE.spot_extra_sources (encode_a .ETH) pricesOracleOnly).foldl min 1182.42 ≤ q ∧
        q ≤ (FE.spot_extra_sources (encode_a .ETH) pricesOracleOnly).foldl max 1182.42) ∧
      FE.get_spot_mark_price (encode_a .ETH) pricesOracleOnly = .ok 1182.42 := by
  refine ⟨rfl,
    c8_spot_mark_price_within_source_bounds (encode_a .ETH) pricesOracleOnly 1182.42 rfl, ?_⟩
  have h : FE.get_spot_mark_price (encode_a .ETH) pricesOracleOnly
      = .ok (((1182.42 : ℚ) + 0) / ((1 : ℕ) : ℚ)) := rfl
  rw [h]
  norm_num

/-!
Facts about banker's rounding (`roundHalfEvenZ` / `pyRound3`) needed for
the simple-margin monotonicity analysis (C9).
-/

theorem roundHalfEvenZ_le_floor_add_one (q : ℚ) : roundHalfEvenZ q ≤ ⌊q⌋ + 1 := by
  unfold roundHalfEvenZ
  split_ifs <;> omega

theorem floor_le_roundHalfEvenZ (q : ℚ) : ⌊q⌋ ≤ roundHalfEvenZ q := by
  unfold roundHalfEvenZ
  split_ifs <;> omega

theorem roundHalfEvenZ_mono {a b : ℚ} (hab : a ≤ b) :
    roundHalfEvenZ a ≤ roundHalfEvenZ b := by
  have hf : ⌊a⌋ ≤ ⌊b⌋ := Int.floor_le_floor hab
  rcases eq_or_lt_of_le hf with heq | hlt
  · have hr : a - (⌊a⌋ : ℚ) ≤ b - (⌊a⌋ : ℚ) := by linarith
    unfold roundHalfEvenZ
    rw [← heq]
    split_ifs <;> first | omega | (exfalso; linarith)
  · calc roundHalfEvenZ a ≤ ⌊a⌋ + 1 := roundHalfEvenZ_le_floor_add_one a
      _ ≤ ⌊b⌋ := by omega
      _ ≤ roundHalfEvenZ b := floor_le_roundHalfEvenZ b

theorem roundHalfEvenZ_nonneg {q : ℚ} (hq : 0 ≤ q) : 0 ≤ roundHalfEvenZ q :=
  le_trans (Int.floor_nonneg.mpr hq) (floor_le_roundHalfEvenZ q)

theorem roundHalfEvenZ_intCast (n : ℤ) : roundHalfEvenZ ((n : ℤ) : ℚ) = n := by
  unfold roundHalfEvenZ
  rw [Int.floor_intCast]
  have h : ((n : ℤ) : ℚ) - (n : ℚ) = 0 := by ring
  rw [h]
  norm_num

theorem pyRound3_mono {a b : ℚ} (hab : a ≤ b) : pyRound3 a ≤ pyRound3 b := by
  unfold pyRound3
  have h : roundHalfEvenZ (a * 1000) ≤ roundHalfEvenZ (b * 1000) :=
    roundHalfEvenZ_mono (by linarith)
  have hc : ((roundHalfEvenZ (a * 1000) : ℤ) : ℚ) ≤ ((roundHalfEvenZ (b * 1000) : ℤ) : ℚ) := by
    exact_mod_cast h
  gcongr

theorem pyRound3_nonneg {q : ℚ} (hq : 0 ≤ q) : 0 ≤ pyRound3 q := by
  unfold pyRound3
  have h : (0 : ℤ) ≤ roundHalfEvenZ (q * 1000) := roundHalfEvenZ_nonneg (by linarith)
  have hc : (0 : ℚ) ≤ ((roundHalfEvenZ (q * 1000) : ℤ) : ℚ) := by exact_mod_cast h
  positivity

theorem pyRound3_eq_of_mul_eq_intCast {q : ℚ} {m : ℤ} (h : q * 1000 = (m : ℚ)) :
    pyRound3 q = (m : ℚ) / 1000 := by
  unfold pyRound3
  rw [h, roundHalfEvenZ_intCast]

/-- C9, counterexample: the claim "increasing a position's absolute size
never decreases its simple-margin contribution" is false for the code's
perpetual/future branch. At mark price 1 under the ETH config
(maintenance pct 0.02, divisor 50000), a short perpetual of size −500
contributes 5, but the larger short of size −1000 contributes 0: the
signed notional makes the variable term negative, driving the clamped
ratio to 0. -/
theorem c9_simple_margin_contribution_not_monotone :
    |(-500 : ℚ)| < |(-1000 : ℚ)| ∧
      FE.future_margin_contribution ethCfg .MAINTENANCE ((-1000) * 1)
        < FE.future_margin_contribution ethCfg .MAINTENANCE ((-500) * 1) := by
  have hfix : FE.future_fixed_margin ethCfg .MAINTENANCE = 1/50 := rfl
  have hr500 : pyRound3 ((-500 : ℚ) * 1 / ethCfg.future_variable_margin)
      = ((-10 : ℤ) : ℚ) / 1000 := by
    apply pyRound3_eq_of_mul_eq_intCast
    show (-500 : ℚ) * 1 / (50000 : ℚ) * 1000 = ((-10 : ℤ) : ℚ)
    norm_num
  have hr1000 : pyRound3 ((-1000 : ℚ) * 1 / ethCfg.future_variable_margin)
      = ((-20 : ℤ) : ℚ) / 1000 := by
    apply pyRound3_eq_of_mul_eq_intCast
    show (-1000 : ℚ) * 1 / (50000 : ℚ) * 1000 = ((-20 : ℤ) : ℚ)
    norm_num
  constructor
  · rw [show |(-500 : ℚ)| = 500 by rw [abs_neg]; exact abs_of_nonneg (by norm_num),
      show |(-1000 : ℚ)| = 1000 by rw [abs_neg]; exact abs_of_nonneg (by norm_num)]
    norm_num
  · simp only [FE.future_margin_contribution, hfix, hr500, hr1000]
    have hm500 : min (1 : ℚ) (1/50 + ((-10 : ℤ) : ℚ) / 1000) = 1/100 := by
      rw [min_eq_right]
      · push_cast
        norm_num
      · push_cast
        norm_num
    have hm1000 : min (1 : ℚ) (1/50 + ((-20 : ℤ) : ℚ) / 1000) = 0 := by
      rw [min_eq_right]
      · push_cast
        norm_num
      · push_cast
        norm_num
    rw [hm500, hm1000]
    rw [show ((-1000 : ℚ)) * 1 * 0 = 0 by ring,
      show ((-500 : ℚ)) * 1 * (1/100) = -5 by ring]
    rw [abs_zero, abs_neg, abs_of_nonneg (by norm_num : (0 : ℚ) ≤ 5)]
    norm_num

/-- C9, amended: holding prices and config fixed (positive divisor,
nonnegative selected fixed percentage), increasing a perpetual/future
position's size within the nonnegative range never decreases its
simple-margin contribution, and increasing the absolute size of an
option position never decreases its contribution; the short
perpetual/future region excluded here is exactly where the
counterexample lives. -/
theorem c9_amended_contribution_monotone (c : AssetConfig) (mt : MarginType)
    (hD : 0 < c.future_variable_margin)
    (hf : 0 ≤ FE.future_fixed_margin c mt) :
    (∀ P s1 s2 : ℚ, 0 ≤ P → 0 ≤ s1 → s1 ≤ s2 →
      FE.future_margin_contribution c mt (s1 * P)
        ≤ FE.future_margin_contribution c mt (s2 * P)) ∧
    (∀ spot mark s1 s2 : ℚ, |s1| ≤ |s2| →
      FE.option_margin_contribution c mt (s1 * spot) (s1 * mark)
        ≤ FE.option_margin_contribution c mt (s2 * spot) (s2 * mark)) := by
  constructor
  · intro P s1 s2 hP hs1 h12
    have hn1 : (0 : ℚ) ≤ s1 * P := mul_nonneg hs1 hP
    have hn2 : (0 : ℚ) ≤ s2 * P := mul_nonneg (hs1.trans h12) hP
    have hn12 : s1 * P ≤ s2 * P := mul_le_mul_of_nonneg_right h12 hP
    have hdiv : s1 * P / c.future_variable_margin ≤ s2 * P / c.future_variable_margin := by
      gcongr
    have hr1 : (0 : ℚ) ≤ pyRound3 (s1 * P / c.future_variable_margin) :=
      pyRound3_nonneg (div_nonneg hn1 hD.le)
    have hr12 : pyRound3 (s1 * P / c.future_variable_margin)
        ≤ pyRound3 (s2 * P / c.future_variable_margin) := pyRound3_mono hdiv
    have hratio1 : (0 : ℚ) ≤ min 1
        (FE.future_fixed_margin c mt + pyRound3 (s1 * P / c.future_variable_margin)) :=
      le_min (by norm_num) (add_nonneg hf hr1)
    have hratio12 : min 1
        (FE.future_fixed_margin c mt + pyRound3 (s1 * P / c.future_variable_margin))
        ≤ min 1 (FE.future_fixed_margin c mt + pyRound3 (s2 * P / c.future_variable_margin)) :=
      min_le_min le_rfl (by linarith)
    simp only [FE.future_margin_contribution]
    rw [abs_of_nonneg (mul_nonneg hn1 hratio1), abs_of_nonneg (mul_nonneg hn2
      (hratio1.trans hratio12))]
    exact mul_le_mul hn12 hratio12 hratio1 hn2
  · intro spot mark s1 s2 h12
    simp only [FE.option_margin_contribution]
    have e1 : s1 * spot * FE.option_fixed_margin c mt + s1 * mark
        = s1 * (spot * FE.option_fixed_margin c mt + mark) := by ring
    have e2 : s2 * spot * FE.option_fixed_margin c mt + s2 * mark
        = s2 * (spot * FE.option_fixed_margin c mt + mark) := by ring
    rw [e1, e2, abs_mul, abs_mul]
    exact mul_le_mul_of_nonneg_right h12 (abs_nonneg _)

/-- Witness for the amended C9 theorem: the ETH config, a long
perpetual of sizes 1 and 2 at mark price 1182.42, and a short option of
sizes −1 and −2 at spot 1182.42 and mark 848.23. -/
theorem c9_amended_contribution_monotone_witness :
    FE.future_margin_contribution ethCfg .MAINTENANCE (1 * 1182.42)
        ≤ FE.future_margin_contribution ethCfg .MAINTENANCE (2 * 1182.42) ∧
      FE.option_margin_contribution ethCfg .MAINTENANCE ((-1) * 1182.42) ((-1) * 848.23)
        ≤ FE.option_margin_contribution ethCfg .MAINTENANCE ((-2) * 1182.42) ((-2) * 848.23) := by
  have hD : (0 : ℚ) < ethCfg.future_variable_margin := by
    rw [show ethCfg.future_variable_margin = 50000 from rfl]
    norm_num
  have hf : (0 : ℚ) ≤ FE.future_fixed_margin ethCfg .MAINTENANCE := by
    rw [show FE.future_fixed_margin ethCfg .MAINTENANCE = 1/50 from rfl]
    norm_num
  have habs : |(-1 : ℚ)| ≤ |(-2 : ℚ)| := by
    rw [abs_neg, abs_neg, abs_one, abs_of_nonneg (by norm_num : (0 : ℚ) ≤ 2)]
    norm_num
  exact ⟨(c9_amended_contribution_monotone ethCfg .MAINTENANCE hD hf).1
      1182.42 1 2 (by norm_num) (by norm_num) (by norm_num),
    (c9_amended_contribution_monotone ethCfg .MAINTENANCE hD hf).2
      1182.42 848.23 (-1) (-2) habs⟩

/-!
Noninterference of `cached_funding_index` (C10): none of the balance,
margin or status computations reads the field. This is proved by
showing every function is invariant under scrubbing the field to 0.
-/

/-- Scrub a position's cached_funding_index to 0, keeping the fields the
engine actually reads. -/
def scrubPos (p : Position) : Position :=
  ⟨p.asset_id, p.balance, 0⟩

theorem scrubPos_asset_id (p : Position) : (scrubPos p).asset_id = p.asset_id := rfl

theorem scrubPos_balance (p : Position) : (scrubPos p).balance = p.balance := rfl

/-- Scrub every position of a vault. Two vaults that are identical
except in their positions' cached_funding_index fields scrub to the same
vault. -/
def vaultScrub (v : Vault) : Vault :=
  ⟨v.public_key, v.collateral, v.collateral_balance, v.positions.map scrubPos⟩

/-- Scrub the grouped positions built by the portfolio-margin partition
loop. -/
def scrubGroups (l : List (Asset × List Position)) : List (Asset × List Position) :=
  l.map (fun g => (g.1, g.2.map scrubPos))

theorem balance_go_scrub (prices : FE.Prices) :
    ∀ (l : List Position) (acc : ℚ),
      FE.balance_go prices (l.map scrubPos) acc = FE.balance_go prices l acc
  | [], _ => rfl
  | p :: rest, acc => by
    simp only [List.map_cons, FE.balance_go, scrubPos_asset_id, scrubPos_balance]
    cases FE.get_deriv_mark_price p.asset_id prices with
    | error e => rfl
    | ok mp => exact balance_go_scrub prices rest _

theorem simple_go_scrub (prices : FE.Prices) (conf : List (Asset × AssetConfig))
    (margin : MarginType) :
    ∀ (l : List Position) (acc : ℚ),
      FE.simple_margin_go prices conf margin (l.map scrubPos) acc
        = FE.simple_margin_go prices conf margin l acc
  | [], _ => rfl
  | p :: rest, acc => by
    simp only [List.map_cons, FE.simple_margin_go, scrubPos_asset_id, scrubPos_balance]
    cases FE.get_deriv_settled_price p.asset_id prices with
    | error e => rfl
    | ok s =>
      try dsimp only
      cases s with
      | some _ => exact simple_go_scrub prices conf margin rest acc
      | none =>
        try dsimp only
        cases decode_d p.asset_id with
        | error e => rfl
        | ok deriv =>
          try dsimp only
          cases FE.get_deriv_mark_price p.asset_id prices with
          | error e => rfl
          | ok mp =>
            try dsimp only
            cases alistGet conf deriv.underlying_asset with
            | none => rfl
            | some c =>
              try dsimp only
              cases deriv.instrument with
              | PERPETUAL => exact simple_go_scrub prices conf margin rest _
              | FUTURE => exact simple_go_scrub prices conf margin rest _
              | OPTION_CALL =>
                try dsimp only
                by_cases hs : p.balance < 0
                · rw [if_pos hs, if_pos hs]
                  cases FE.get_spot_mark_price (encode_a deriv.underlying_asset) prices with
                  | error e => rfl
                  | ok smp => exact simple_go_scrub prices conf margin rest _
                · rw [if_neg hs, if_neg hs]
                  exact simple_go_scrub prices conf margin rest _
              | OPTION_PUT =>
                try dsimp only
                by_cases hs : p.balance < 0
                · rw [if_pos hs, if_pos hs]
                  cases FE.get_spot_mark_price (encode_a deriv.underlying_asset) prices with
                  | error e => rfl
                  | ok smp => exact simple_go_scrub prices conf margin rest _
                · rw [if_neg hs, if_neg hs]
                  exact simple_go_scrub prices conf margin rest _

theorem setdefaultAppend_scrub :
    ∀ (acc : List (Asset × List Position)) (a : Asset) (p : Position),
      FE.setdefaultAppend (scrubGroups acc) a (scrubPos p)
        = scrubGroups (FE.setdefaultAppend acc a p)
  | [], a, p => rfl
  | (k, lst) :: rest, a, p => by
    simp only [scrubGroups, List.map_cons, FE.setdefaultAppend]
    by_cases hk : k = a
    · rw [if_pos hk, if_pos hk]
      simp [List.map_append]
    · rw [if_neg hk, if_neg hk]
      have := setdefaultAppend_scrub rest a p
      simp only [scrubGroups] at this
      simp [this]

theorem partition_go_scrub (prices : FE.Prices) :
    ∀ (l : List Position) (acc : List (Asset × List Position)),
      FE.partition_go prices (l.map scrubPos) (scrubGroups acc)
        = (FE.partition_go prices l acc).map scrubGroups
  | [], acc => rfl
  | p :: rest, acc => by
    simp only [List.map_cons, FE.partition_go, scrubPos_asset_id]
    cases alistGet prices.settled p.asset_id with
    | some _ => exact partition_go_scrub prices rest acc
    | none =>
      try dsimp only
      cases decode_d p.asset_id with
      | error e => rfl
      | ok deriv =>
        try dsimp only
        rw [setdefaultAppend_scrub]
        exact partition_go_scrub prices rest _

theorem scen_positions_go_scrub (pricer : OptionPricer) (now : ℤ)
    (prices : FE.Prices) (c : AssetConfig) (spot sm vm : ℚ) :
    ∀ (ps : List Position) (pnl : ℚ) (cache : List (String × ℚ)) (cnt : ℕ),
      FE.scen_positions_go pricer now prices c spot sm vm (ps.map scrubPos) pnl cache cnt
        = FE.scen_positions_go pricer now prices c spot sm vm ps pnl cache cnt
  | [], _, _, _ => rfl
  | p :: rest, pnl, cache, cnt => by
    simp only [List.map_cons, FE.scen_positions_go, scrubPos_asset_id, scrubPos_balance]
    cases decode_d p.asset_id with
    | error e => rfl
    | ok deriv =>
      try dsimp only
      cases deriv.instrument with
      | PERPETUAL => exact scen_positions_go_scrub pricer now prices c spot sm vm rest _ _ _
      | FUTURE => exact scen_positions_go_scrub pricer now prices c spot sm vm rest _ _ _
      | OPTION_CALL =>
        try dsimp only
        cases alistGet prices.market p.asset_id with
        | none => rfl
        | some mk => exact scen_positions_go_scrub pricer now prices c spot sm vm rest _ _ _
      | OPTION_PUT =>
        try dsimp only
        cases alistGet prices.market p.asset_id with
        | none => rfl
        | some mk => exact scen_positions_go_scrub pricer now prices c spot sm vm rest _ _ _

theorem scen_run_scrub (pricer : OptionPricer) (now : ℤ) (prices : FE.Prices)
    (c : AssetConfig) (spot : ℚ) (u : Asset) (ps : List Position) :
    ∀ (scens : List (ℚ × ℚ)) (cache : List (String × ℚ))
      (ml : List (Asset × ℚ)) (cnt : ℕ),
      FE.scen_run pricer now prices c spot u (ps.map scrubPos) scens cache ml cnt
        = FE.scen_run pricer now prices c spot u ps scens cache ml cnt
  | [], _, _, _ => rfl
  | (sm, vm) :: rest, cache, ml, cnt => by
    simp only [FE.scen_run]
    rw [scen_positions_go_scrub]
    cases FE.scen_positions_go pricer now prices c spot sm vm ps 0 cache cnt with
    | mk res cnt2 =>
      try dsimp only
      cases res with
      | error e => rfl
      | ok pr =>
        try dsimp only
        cases pr with
        | mk pnl cache2 =>
          try dsimp only
          cases alistGet ml u with
          | none => rfl
          | some prev => exact scen_run_scrub pricer now prices c spot u ps rest _ _ _

theorem assets_go_scrub (pricer : OptionPricer) (now : ℤ) (prices : FE.Prices)
    (conf : List (Asset × AssetConfig)) :
    ∀ (groups : List (Asset × List Position)) (ml : List (Asset × ℚ)) (cnt : ℕ),
      FE.assets_go pricer now prices conf (scrubGroups groups) ml cnt
        = FE.assets_go pricer now prices conf groups ml cnt
  | [], _, _ => rfl
  | (u, ps) :: rest, ml, cnt => by
    simp only [scrubGroups, List.map_cons, FE.assets_go]
    cases alistGet conf u with
    | none => rfl
    | some c =>
      try dsimp only
      cases FE.get_spot_mark_price (encode_a u) prices with
      | error e => rfl
      | ok spot =>
        try dsimp only
        rw [scen_run_scrub]
        cases FE.scen_run pricer now prices c spot u ps (FE.scen_list c) [] ml cnt with
        | mk res cnt2 =>
          try dsimp only
          cases res with
          | error e => rfl
          | ok pr =>
            try dsimp only
            cases pr with
            | mk ml2 cache2 =>
              try dsimp only
              have := assets_go_scrub pricer now prices conf rest ml2 cnt2
              simp only [scrubGroups] at this
              exact this

theorem portfolio_margin_run_scrub (pricer : OptionPricer) (now : ℤ)
    (v : Vault) (prices : FE.Prices) (conf : List (Asset × AssetConfig))
    (mt : MarginType) :
    FE.get_vault_portfolio_margin_run pricer now (vaultScrub v) prices conf mt
      = FE.get_vault_portfolio_margin_run pricer now v prices conf mt := by
  simp only [FE.get_vault_portfolio_margin_run, vaultScrub]
  have hp : FE.partition_go prices (v.positions.map scrubPos) (scrubGroups [])
      = (FE.partition_go prices v.positions []).map scrubGroups :=
    partition_go_scrub prices v.positions []
  simp only [scrubGroups, List.map_nil] at hp
  rw [hp]
  cases FE.partition_go prices v.positions [] with
  | error e => rfl
  | ok groups =>
    simp only [Except.map]
    try dsimp only
    rw [assets_go_scrub pricer now prices conf groups [] 0]

theorem balance_scrub (v : Vault) (prices : FE.Prices) :
    FE.get_vault_balance (vaultScrub v) prices = FE.get_vault_balance v prices := by
  simp only [FE.get_vault_balance, vaultScrub]
  exact balance_go_scrub prices v.positions v.collateral_balance

theorem simple_margin_scrub (v : Vault) (prices : FE.Prices)
    (conf : List (Asset × AssetConfig)) (mt : MarginType) :
    FE.get_vault_simple_margin (vaultScrub v) prices conf mt
      = FE.get_vault_simple_margin v prices conf mt := by
  simp only [FE.get_vault_simple_margin, vaultScrub]
  exact simple_go_scrub prices conf mt v.positions 0

theorem portfolio_margin_scrub (pricer : OptionPricer) (now : ℤ) (v : Vault)
    (prices : FE.Prices) (conf : List (Asset × AssetConfig)) (mt : MarginType) :
    FE.get_vault_portfolio_margin pricer now (vaultScrub v) prices conf mt
      = FE.get_vault_portfolio_margin pricer now v prices conf mt := by
  simp only [FE.get_vault_portfolio_margin]
  rw [portfolio_margin_run_scrub]

theorem margin_scrub (pricer : OptionPricer) (now : ℤ) (v : Vault)
    (prices : FE.Prices) (conf : List (Asset × AssetConfig)) (mt : MarginType) :
    FE.get_vault_margin pricer now (vaultScrub v) prices conf mt
      = FE.get_vault_margin pricer now v prices conf mt := by
  simp only [FE.get_vault_margin]
  rw [simple_margin_scrub, portfolio_margin_scrub]

theorem status_scrub (pricer : OptionPricer) (now : ℤ) (v : Vault)
    (prices : FE.Prices) (conf : List (Asset × AssetConfig)) :
    FE.get_vault_status pricer now (vaultScrub v) prices conf
      = FE.get_vault_status pricer now v prices conf := by
  simp only [FE.get_vault_status]
  rw [balance_scrub, margin_scrub]

/-- C10: confirmed. Any two vaults that are identical except in the
cached_funding_index fields of their positions (formally: they scrub to
the same vault) produce identical results — values and failures alike —
from get_vault_balance, get_vault_simple_margin,
get_vault_portfolio_margin, get_vault_margin and get_vault_status: no
computation in the engine reads cached_funding_index. -/
theorem c10_cached_funding_index_noninterference (pricer : OptionPricer)
    (now : ℤ) (v1 v2 : Vault) (prices : FE.Prices)
    (conf : List (Asset × AssetConfig)) (mt : MarginType)
    (h : vaultScrub v1 = vaultScrub v2) :
    FE.get_vault_balance v1 prices = FE.get_vault_balance v2 prices ∧
      FE.get_vault_simple_margin v1 prices conf mt
        = FE.get_vault_simple_margin v2 prices conf mt ∧
      FE.get_vault_portfolio_margin pricer now v1 prices conf mt
        = FE.get_vault_portfolio_margin pricer now v2 prices conf mt ∧
      FE.get_vault_margin pricer now v1 prices conf mt
        = FE.get_vault_margin pricer now v2 prices conf mt ∧
      FE.get_vault_status pricer now v1 prices conf
        = FE.get_vault_status pricer now v2 prices conf := by
  refine ⟨?_, ?_, ?_, ?_, ?_⟩
  · rw [← balance_scrub v1 prices, h, balance_scrub v2 prices]
  · rw [← simple_margin_scrub v1 prices conf mt, h, simple_margin_scrub v2 prices conf mt]
  · rw [← portfolio_margin_scrub pricer now v1 prices conf mt, h,
      portfolio_margin_scrub pricer now v2 prices conf mt]
  · rw [← margin_scrub pricer now v1 prices conf mt, h,
      margin_scrub pricer now v2 prices conf mt]
  · rw [← status_scrub pricer now v1 prices conf, h, status_scrub pricer now v2 prices conf]

/-- Vault identical to `vaultOnePerp` except for the position's
cached_funding_index (1181.12 instead of 0). -/
def vaultOnePerpFunding : Vault :=
  ⟨"0xdeadbeef", .USDC, 1000000, [⟨perpId, -500, 1181.12⟩]⟩

/-- Witness for C10: `vaultOnePerp` and `vaultOnePerpFunding` differ
only in cached_funding_index, and all five computations agree on them. -/
theorem c10_cached_funding_index_noninterference_witness :
    vaultScrub vaultOnePerp = vaultScrub vaultOnePerpFunding ∧
      (FE.get_vault_balance vaultOnePerp pricesDemo
          = FE.get_vault_balance vaultOnePerpFunding pricesDemo ∧
        FE.get_vault_simple_margin vaultOnePerp pricesDemo confDemo .MAINTENANCE
          = FE.get_vault_simple_margin vaultOnePerpFunding pricesDemo confDemo .MAINTENANCE ∧
        FE.get_vault_portfolio_margin zeroPricer 0 vaultOnePerp pricesDemo confDemo .MAINTENANCE
          = FE.get_vault_portfolio_margin zeroPricer 0 vaultOnePerpFunding pricesDemo confDemo
            .MAINTENANCE ∧
        FE.get_vault_margin zeroPricer 0 vaultOnePerp pricesDemo confDemo .MAINTENANCE
          = FE.get_vault_margin zeroPricer 0 vaultOnePerpFunding pricesDemo confDemo
            .MAINTENANCE ∧
        FE.get_vault_status zeroPricer 0 vaultOnePerp pricesDemo confDemo
          = FE.get_vault_status zeroPricer 0 vaultOnePerpFunding pricesDemo confDemo) :=
  ⟨rfl, c10_cached_funding_index_noninterference zeroPricer 0 vaultOnePerp
    vaultOnePerpFunding pricesDemo confDemo .MAINTENANCE rfl⟩
